import Mathlib

/-!
Verification of the `mcp-browse-me` repository's natural-language
specification against its code, through a shallow embedding in Lean 4.

The embedded fragments, translated from the Python sources:
  * `format_rows`, `execute_sql`, `query_database`, `browse_files` from
    `server/fast_mcp_server.py` and `src/mcp/server/fast_mcp_server.py`
    (the two files' bodies of these functions are identical);
  * `browse_files_tool` from `server/main.py` (the legacy variant of the
    directory-listing handler, which catches nothing);
  * `Settings.load_env` from `src/settings.py` (identical to
    `load_env_file` of `server/fast_mcp_server.py`);
  * `ChatStore.load_messages` / `ChatStore.save_messages` from
    `src/chatbot/store.py`.

External effects (the database drivers, the file system, `os.environ`,
langchain's message (de)serialisation) enter as explicit parameters; a
raised Python exception is an `Except.error` / `Option.none` value.
-/

/-! ## Python string primitives used by the sources -/

/-- Python `sep.join(parts)`. -/
def pyJoin (sep : String) : List String → String
  | [] => ""
  | [x] => x
  | x :: xs => x ++ sep ++ pyJoin sep xs

/-- Python `s.ljust(w)`: pad on the right with spaces up to width `w`
(a string already at least `w` long is returned unchanged). -/
def ljust (s : String) (w : Nat) : String :=
  s ++ String.mk (List.replicate (w - s.length) ' ')

/-- Python `s.startswith(p)`, on code points. -/
def pyStartswith (s p : String) : Bool :=
  p.data.isPrefixOf s.data

/-- Newlines inside a string: `format_rows` joins its lines with `"\n"`,
so a string renders as `nlCount s + 1` lines. -/
def nlCount (s : String) : Nat :=
  s.data.count '\n'

/-- Number of lines of a string without a trailing newline. -/
def lineCount (s : String) : Nat :=
  nlCount s + 1

/-! ## `format_rows` (tabular formatter, `fast_mcp_server.py`)

Cell values arrive already stringified: `str(value)` maps every Python
value to a string, so rows are embedded as `List String`. A raised
`IndexError` is `none`. -/

/-- The fixed message `format_rows` returns when `rows` is empty. -/
def noRowsMsg : String :=
  "Query executed successfully (no rows returned)."

/-- The row cap `max_rows = 25` of `format_rows`. -/
def max_rows : Nat := 25

/-- One pass of the width loop: `for idx, value in enumerate(row):
col_widths[idx] = max(col_widths[idx], len(str(value)))`. The loop walks
`row` and `col_widths` in lockstep from index 0; reading `col_widths[idx]`
past the end raises `IndexError`, embedded as `none`. -/
def updateColWidths : List Nat → List String → Option (List Nat)
  | ws, [] => some ws
  | [], _ :: _ => none
  | w :: ws, v :: vs => (updateColWidths ws vs).map fun t => max w v.length :: t

/-- The value of `col_widths` after both loops of `format_rows`: it starts
as `[len(h) for h in header_list]` and is updated once per row. -/
def computeColWidths (headers : List String) (rows : List (List String)) :
    Option (List Nat) :=
  rows.foldlM updateColWidths (headers.map String.length)

/-- The generator inside `format_row`: `str(value).ljust(col_widths[idx])
for idx, value in enumerate(row)`, again indexing `col_widths` in lockstep
with the row and raising `IndexError` (`none`) past its end. -/
def ljustCells : List Nat → List String → Option (List String)
  | _, [] => some []
  | [], _ :: _ => none
  | w :: ws, v :: vs => (ljustCells ws vs).map fun t => ljust v w :: t

/-- The inner `format_row` of `format_rows`: `" | ".join(...)` over the
left-justified cells. -/
def format_row (col_widths : List Nat) (row : List String) : Option String :=
  (ljustCells col_widths row).map (pyJoin " | ")

/-- The truncation summary line `f"... {len(rows) - max_rows} more rows
truncated ..."` (its count rendered in decimal, as Python renders an int). -/
def truncationLine (n : Nat) : String :=
  "... " ++ Nat.repr n ++ " more rows truncated ..."

/-- `format_rows(headers, rows)` of `fast_mcp_server.py`: the fixed message
on empty `rows`, otherwise header line, dash separator, up to `max_rows`
data rows and, past the cap, the truncation line, joined with `"\n"`. -/
def format_rows (headers : List String) (rows : List (List String)) :
    Option String :=
  if rows.isEmpty then some noRowsMsg
  else do
    let col_widths ← computeColWidths headers rows
    let headerLine ← format_row col_widths headers
    let sepLine := pyJoin "-+-" (col_widths.map fun w => String.mk (List.replicate w '-'))
    let dataLines ← (rows.take max_rows).mapM (format_row col_widths)
    let allLines := (headerLine :: sepLine :: dataLines) ++
      (if rows.length > max_rows then [truncationLine (rows.length - max_rows)] else [])
    some (pyJoin "\n" allLines)

/-- The cells of column `i`: the `i`-th entry of every row that has one. -/
def columnCells (rows : List (List String)) (i : Nat) : List String :=
  rows.filterMap fun r => r[i]?

/-- The spec's column-width formula, stated from its words: the maximum
string length among the `i`-th header and the `i`-th cell of every row. -/
def specColWidth (headers : List String) (rows : List (List String)) (i : Nat) : Nat :=
  ((columnCells rows i).map String.length).foldl max ((headers[i]?.map String.length).getD 0)

/-! ## `execute_sql` / `query_database` (SQL dispatcher, `fast_mcp_server.py`)

The environment is a map `String → Option String` (`os.environ.get`). The
two backend executions, `execute_sqlite_query` and `execute_postgres_query`,
open a database connection and run the query; that I/O enters as the
parameters `runSqlite` / `runPostgres`, each yielding either the raised
driver exception's message or the function's result string. The second
component of `execute_sql`'s result records which backends were entered
(and hence had a connection opened) during the call. -/

/-- The distinct database backends the dispatcher can route to. -/
inductive Backend
  | sqlite
  | postgres
deriving DecidableEq

/-- A Python exception raised inside `execute_sql`, by class. -/
inductive PyErr
  | runtimeError (msg : String)
  | valueError (msg : String)
  | driverError (msg : String)
deriving DecidableEq

/-- Python `str(exc)`: the exception's message. -/
def PyErr.message : PyErr → String
  | .runtimeError m => m
  | .valueError m => m
  | .driverError m => m

/-- The `RuntimeError` message of `execute_sql` when `DATABASE_URL` is
unset (or set to the empty string, which Python's `if not database_url`
treats the same way). -/
def missingUrlMsg : String :=
  "DATABASE_URL is not set. Add it to .env or the environment before querying."

/-- The `ValueError` message of `execute_sql` for an unsupported scheme. -/
def unsupportedSchemeMsg (url : String) : String :=
  "Unsupported DATABASE_URL scheme in '" ++ url ++ "'."

/-- `execute_sql(query)` of `fast_mcp_server.py`: read `DATABASE_URL`,
raise `RuntimeError` when it is missing or empty, route on its prefix
(`sqlite:///`, then `postgresql://` or `postgres://`), and raise
`ValueError` on any other scheme. -/
def execute_sql (env : String → Option String)
    (runSqlite runPostgres : String → String → Except String String)
    (query : String) : Except PyErr String × List Backend :=
  match env "DATABASE_URL" with
  | none => (Except.error (PyErr.runtimeError missingUrlMsg), [])
  | some url =>
    if url = "" then (Except.error (PyErr.runtimeError missingUrlMsg), [])
    else if pyStartswith url "sqlite:///" then
      ((runSqlite url query).mapError PyErr.driverError, [Backend.sqlite])
    else if pyStartswith url "postgresql://" || pyStartswith url "postgres://" then
      ((runPostgres url query).mapError PyErr.driverError, [Backend.postgres])
    else
      (Except.error (PyErr.valueError (unsupportedSchemeMsg url)), [])

/-- The `query_database` tool: return `execute_sql`'s string, catching any
exception (`except Exception`) and converting it into the failure string
`f"Failed to execute query: {exc}"`; the exception is logged, never
re-raised, so the tool itself is a total `String`-valued function. -/
def query_database (env : String → Option String)
    (runSqlite runPostgres : String → String → Except String String)
    (query : String) : String :=
  match (execute_sql env runSqlite runPostgres query).fst with
  | Except.ok s => s
  | Except.error e => "Failed to execute query: " ++ e.message

/-! ## `browse_files` (`fast_mcp_server.py`)

`os.listdir` is the file-system oracle: it returns the directory's entries
or raises one of the three exception classes the handler catches.
`Path(path).expanduser()` is the parameter `expand`. -/

/-- Outcome of `os.listdir` as `browse_files` distinguishes it. -/
inductive ListDirResult
  | ok (entries : List String)
  | fileNotFound
  | notADirectory
  | permissionError

/-- The `browse_files` tool: list the entries at the expanded path,
catching `FileNotFoundError`, `NotADirectoryError` and `PermissionError`
and returning a descriptive string in each case, so the handler is a total
`String`-valued function. -/
def browse_files (expand : String → String) (listdir : String → ListDirResult)
    (path : String) : String :=
  match listdir (expand path) with
  | ListDirResult.ok files => "Files at " ++ expand path ++ ": " ++ pyJoin ", " files
  | ListDirResult.fileNotFound => "The path '" ++ expand path ++ "' does not exist."
  | ListDirResult.notADirectory => "The path '" ++ expand path ++ "' is not a directory."
  | ListDirResult.permissionError => "Permission denied while accessing '" ++ expand path ++ "'."

/-- `browse_files_tool` of `server/main.py` (the legacy `mcp`-package
variant): `files = os.listdir(path)` with no try/except and no
`expanduser`, then the same `"Files at {path}: "` string. Any exception
`os.listdir` raises propagates out of the handler, embedded as
`Except.error` carrying the raised outcome. -/
def browse_files_tool (listdir : String → ListDirResult) (path : String) :
    Except ListDirResult String :=
  match listdir path with
  | ListDirResult.ok files =>
      Except.ok ("Files at " ++ path ++ ": " ++ pyJoin ", " files)
  | ListDirResult.fileNotFound => Except.error ListDirResult.fileNotFound
  | ListDirResult.notADirectory => Except.error ListDirResult.notADirectory
  | ListDirResult.permissionError => Except.error ListDirResult.permissionError

/-! ## `Settings.load_env` (`src/settings.py`)

The `.env` file is its list of lines (`read_text().splitlines()`); the
process environment is a map `String → Option String` mutated only through
`os.environ.setdefault`. -/

/-- The characters Python's default `str.strip()` removes. -/
def isPySpace (c : Char) : Bool :=
  c = ' ' || c = '\t' || c = '\n' || c = '\r' || c = '\x0b' || c = '\x0c'

/-- Python `s.strip()`: drop leading and trailing whitespace. -/
def pyStrip (s : String) : String :=
  String.mk (((s.data.dropWhile isPySpace).reverse.dropWhile isPySpace).reverse)

/-- Python `s.split("=", 1)` when `"="` occurs in `s`: the text before the
first `=` and everything after it. -/
def pySplitEqOnce (s : String) : String × String :=
  (String.mk (s.data.takeWhile fun c => c != '='),
   String.mk (s.data.drop ((s.data.takeWhile fun c => c != '=').length + 1)))

/-- The loop body of `load_env`: strip the line, skip it when it is empty,
starts with `#` or has no `=`, otherwise split at the first `=` and strip
key and value. -/
def parseEnvLine (line : String) : Option (String × String) :=
  let stripped := pyStrip line
  if stripped = "" || pyStartswith stripped "#" || !(stripped.data.contains '=') then none
  else
    let kv := pySplitEqOnce stripped
    some (pyStrip kv.fst, pyStrip kv.snd)

/-- Python `os.environ.setdefault(k, v)`: set `k` to `v` only when `k` is
absent; an already-present value is untouched. -/
def setdefault (env : String → Option String) (k v : String) :
    String → Option String :=
  fun q => if q = k then some ((env k).getD v) else env q

/-- `Settings.load_env` of `src/settings.py` (the same loop as
`load_env_file` of `server/fast_mcp_server.py`), applied to a file that
exists: walk the lines in order, folding each parsed `key=value` pair into
the environment with `setdefault` and skipping the rest. -/
def load_env : (String → Option String) → List String → (String → Option String)
  | env, [] => env
  | env, line :: rest =>
    match parseEnvLine line with
    | none => load_env env rest
    | some kv => load_env (setdefault env kv.fst kv.snd) rest

/-- The value the `.env` file offers for `key`: the value of the first
parsed `key=value` line naming it (later duplicates lose to `setdefault`). -/
def firstFileValue (lines : List String) (key : String) : Option String :=
  ((lines.filterMap parseEnvLine).find? fun kv => kv.fst == key).map Prod.snd

/-! ## `ChatStore` (`src/chatbot/store.py`)

The `chat_threads` table is a map from the session key (`str(session_id)`)
to its row; `NOW()` is the explicit argument `now`. langchain's
`message_to_dict` / `messages_from_dict` are parameters, with the library's
round-trip property a hypothesis where a claim needs it; the `JSONB`
column stores the dict list itself (`json.dumps` / `JSONB` decoding are a
faithful pair on JSON values). -/

/-- A row of `chat_threads` apart from its key: `messages JSONB`,
`created_at`, `updated_at` (timestamps as abstract instants). -/
structure ChatRow (Dict : Type) where
  messages : List Dict
  created_at : Nat
  updated_at : Nat

/-- The `chat_threads` table, keyed by `session_id`. -/
def ChatDB (Dict : Type) : Type := String → Option (ChatRow Dict)

/-- The table `_ensure_table` creates when it does not exist yet: empty. -/
def emptyChatDB (Dict : Type) : ChatDB Dict := fun _ => none

/-- `ChatStore.save_messages`: serialise the full message list and upsert —
`INSERT ... ON CONFLICT (session_id) DO UPDATE SET messages =
EXCLUDED.messages, updated_at = NOW()`. On conflict only `messages` and
`updated_at` are assigned; a fresh row gets `created_at = updated_at =
NOW()` from the column defaults. -/
def save_messages {Msg Dict : Type} (message_to_dict : Msg → Dict)
    (session_id : String) (messages : List Msg) (now : Nat) (db : ChatDB Dict) :
    ChatDB Dict :=
  let stored := messages.map message_to_dict
  fun k =>
    if k = session_id then
      match db session_id with
      | some r => some { r with messages := stored, updated_at := now }
      | none => some { messages := stored, created_at := now, updated_at := now }
    else db k

/-- `ChatStore.load_messages`: an absent row yields `[]` (`if not row:
return []`); otherwise `row["messages"] or []` (an empty stored list is
replaced by the literal `[]`, the same value) is deserialised. -/
def load_messages {Msg Dict : Type} (messages_from_dict : List Dict → List Msg)
    (session_id : String) (db : ChatDB Dict) : List Msg :=
  match db session_id with
  | none => []
  | some r => messages_from_dict (if r.messages.isEmpty then [] else r.messages)

/-- What C2 asserts of the dispatcher for a present, non-empty
`DATABASE_URL` equal to `url`: the SQLite scheme enters exactly the SQLite
backend, the two Postgres schemes enter exactly the Postgres backend,
those backends are distinct, and a string matching neither scheme raises
`ValueError` with no backend entered — no connection is ever attempted. -/
def dispatchSpec (env : String → Option String)
    (runSqlite runPostgres : String → String → Except String String)
    (query url : String) : Prop :=
  (Backend.sqlite ≠ Backend.postgres)
  ∧ (pyStartswith url "sqlite:///" = true →
      execute_sql env runSqlite runPostgres query =
        ((runSqlite url query).mapError PyErr.driverError, [Backend.sqlite]))
  ∧ ((pyStartswith url "postgresql://" = true ∨ pyStartswith url "postgres://" = true) →
      execute_sql env runSqlite runPostgres query =
        ((runPostgres url query).mapError PyErr.driverError, [Backend.postgres]))
  ∧ (pyStartswith url "sqlite:///" = false →
      pyStartswith url "postgresql://" = false →
      pyStartswith url "postgres://" = false →
      execute_sql env runSqlite runPostgres query =
        (Except.error (PyErr.valueError (unsupportedSchemeMsg url)), []))

/-! ## Helper lemmas -/

/-- Two strings with the same character list are equal. -/
theorem str_ext {a b : String} (h : a.data = b.data) : a = b := by
  cases a; cases b; cases h; rfl

/-- The width loop over one row succeeds exactly when the row has at most
as many cells as there are widths. -/
theorem updateColWidths_isSome (row : List String) :
    ∀ ws : List Nat, (updateColWidths ws row).isSome = true ↔ row.length ≤ ws.length := by
  induction row with
  | nil => intro ws; simp [updateColWidths]
  | cons v vs ih =>
    intro ws
    cases ws with
    | nil => simp [updateColWidths]
    | cons w ws =>
      simp [updateColWidths, ih ws, Nat.succ_le_succ_iff]

/-- The width loop over one row keeps the width list's length. -/
theorem updateColWidths_length (row : List String) :
    ∀ ws ws' : List Nat, updateColWidths ws row = some ws' → ws'.length = ws.length := by
  induction row with
  | nil =>
    intro ws ws' h
    simp [updateColWidths] at h
    subst h; rfl
  | cons v vs ih =>
    intro ws ws' h
    cases ws with
    | nil => cases h
    | cons w ws =>
      obtain ⟨t, ht, rfl⟩ := Option.map_eq_some'.mp h
      simp [ih ws t ht]

/-- Entry `i` after the width loop over one row: the old width maxed with
the length of the row's `i`-th cell when the row has one. -/
theorem updateColWidths_get (row : List String) :
    ∀ (ws ws' : List Nat), updateColWidths ws row = some ws' → ∀ i : Nat,
      ws'[i]? = match row[i]? with
        | some v => ws[i]?.map fun w => max w v.length
        | none => ws[i]? := by
  induction row with
  | nil =>
    intro ws ws' h i
    simp [updateColWidths] at h
    subst h; simp
  | cons v vs ih =>
    intro ws ws' h i
    cases ws with
    | nil => cases h
    | cons w ws =>
      obtain ⟨t, ht, rfl⟩ := Option.map_eq_some'.mp h
      cases i with
      | zero => simp
      | succ j => simpa using ih ws t ht j

/-- `columnCells` over a consed row list. -/
theorem columnCells_cons (r : List String) (rows : List (List String)) (i : Nat) :
    columnCells (r :: rows) i = match r[i]? with
      | some v => v :: columnCells rows i
      | none => columnCells rows i := by
  cases h : r[i]? <;> simp [columnCells, List.filterMap_cons, h]

/-- The whole width fold of `format_rows`: when every row fits under the
initial width list, it succeeds, keeps the length, and entry `i` ends as
the fold of `max` over the lengths of column `i`'s cells started at the
initial entry. -/
theorem computeColWidths_go (rows : List (List String)) :
    ∀ ws : List Nat, (∀ r ∈ rows, r.length ≤ ws.length) →
      ∃ ws', rows.foldlM updateColWidths ws = some ws'
        ∧ ws'.length = ws.length
        ∧ ∀ i w, ws[i]? = some w →
            ws'[i]? = some (((columnCells rows i).map String.length).foldl max w) := by
  induction rows with
  | nil =>
    intro ws _
    exact ⟨ws, rfl, rfl, fun i w h => by simpa [columnCells] using h⟩
  | cons r rest ih =>
    intro ws hfit
    have hr : r.length ≤ ws.length := hfit r (by simp)
    obtain ⟨ws₁, h₁⟩ := Option.isSome_iff_exists.mp ((updateColWidths_isSome r ws).mpr hr)
    have hlen₁ : ws₁.length = ws.length := updateColWidths_length r ws ws₁ h₁
    obtain ⟨ws', h₂, hlen₂, hget⟩ := ih ws₁ (fun q hq => hlen₁ ▸ hfit q (by simp [hq]))
    refine ⟨ws', ?_, hlen₂.trans hlen₁, ?_⟩
    · simp [List.foldlM_cons, h₁, h₂]
    · intro i w hw
      have hstep := updateColWidths_get r ws ws₁ h₁ i
      rw [columnCells_cons]
      cases hcell : r[i]? with
      | none =>
        rw [hcell] at hstep
        have hstep' : ws₁[i]? = ws[i]? := hstep
        exact hget i w (hstep'.trans hw)
      | some v =>
        rw [hcell, hw] at hstep
        have hstep' : ws₁[i]? = some (max w v.length) := hstep
        show ws'[i]? = some (((v :: columnCells rest i).map String.length).foldl max w)
        exact hget i (max w v.length) hstep'

/-- Bounds and attainment for a `foldl max`: the result dominates the seed
and every element, and equals the seed or some element. -/
theorem foldl_max_bounds (l : List Nat) :
    ∀ a : Nat, a ≤ l.foldl max a ∧ (∀ x ∈ l, x ≤ l.foldl max a)
      ∧ (l.foldl max a = a ∨ ∃ x ∈ l, l.foldl max a = x) := by
  induction l with
  | nil => intro a; simp
  | cons b t ih =>
    intro a
    obtain ⟨hseed, helem, hatt⟩ := ih (max a b)
    have hfc : (b :: t).foldl max a = t.foldl max (max a b) := rfl
    refine ⟨?_, ?_, ?_⟩
    · rw [hfc]
      exact le_trans (le_max_left a b) hseed
    · intro y hy
      rw [hfc]
      rcases List.mem_cons.mp hy with rfl | hy
      · exact le_trans (le_max_right a y) hseed
      · exact helem y hy
    · rw [hfc]
      rcases hatt with heq | ⟨z, hz, heq⟩
      · rcases max_choice a b with hm | hm
        · exact Or.inl (by rw [heq, hm])
        · exact Or.inr ⟨b, List.mem_cons_self b t, by rw [heq, hm]⟩
      · exact Or.inr ⟨z, List.mem_cons_of_mem b hz, heq⟩

/-- The `ljust` generator of `format_row` succeeds on any row at most as
long as the width list, producing one padded cell per row cell. -/
theorem ljustCells_some (row : List String) :
    ∀ ws : List Nat, row.length ≤ ws.length →
      ∃ cs, ljustCells ws row = some cs ∧ cs.length = row.length
        ∧ ∀ c ∈ cs, ∃ v ∈ row, ∃ w, c = ljust v w := by
  induction row with
  | nil => intro ws _; exact ⟨[], by simp [ljustCells], rfl, by simp⟩
  | cons v vs ih =>
    intro ws hlen
    cases ws with
    | nil => simp at hlen
    | cons w ws =>
      obtain ⟨cs, hcs, hcslen, hmem⟩ := ih ws (Nat.succ_le_succ_iff.mp (by simpa using hlen))
      refine ⟨ljust v w :: cs, by simp [ljustCells, hcs], by simp [hcslen], ?_⟩
      intro c hc
      rcases List.mem_cons.mp hc with rfl | hc
      · exact ⟨v, by simp, w, rfl⟩
      · obtain ⟨v', hv', w', hw'⟩ := hmem c hc
        exact ⟨v', by simp [hv'], w', hw'⟩

/-- Newlines in a concatenation add up. -/
theorem nlCount_append (a b : String) : nlCount (a ++ b) = nlCount a + nlCount b := by
  simp [nlCount, String.data_append, List.count_append]

/-- A string has no newline character exactly when its count is zero. -/
theorem nlCount_eq_zero {s : String} : nlCount s = 0 ↔ '\n' ∉ s.data := by
  simp [nlCount, List.count_eq_zero]

/-- Padding with spaces adds no newline. -/
theorem nlCount_ljust (v : String) (w : Nat) : nlCount (ljust v w) = nlCount v := by
  have hpad : nlCount (String.mk (List.replicate (w - v.length) ' ')) = 0 := by
    rw [nlCount_eq_zero]
    intro hmem
    have := List.eq_of_mem_replicate hmem
    simp at this
  rw [ljust, nlCount_append, hpad]
  rfl

/-- Joining newline-free parts with a newline-free separator stays
newline-free. -/
theorem nlCount_pyJoin_zero (sep : String) (hsep : nlCount sep = 0) :
    ∀ lines : List String, (∀ l ∈ lines, nlCount l = 0) →
      nlCount (pyJoin sep lines) = 0 := by
  intro lines
  induction lines with
  | nil => intro _; rfl
  | cons x xs ih =>
    intro h
    cases xs with
    | nil => exact h x (by simp)
    | cons y t =>
      have hstep : pyJoin sep (x :: y :: t) = x ++ sep ++ pyJoin sep (y :: t) := rfl
      rw [hstep, nlCount_append, nlCount_append, h x (by simp), hsep,
        ih fun l hl => h l (by simp [hl])]

/-- Joining `k` newline-free lines with `"\n"` produces `k - 1` newlines. -/
theorem nlCount_pyJoin_newline :
    ∀ lines : List String, (∀ l ∈ lines, nlCount l = 0) →
      nlCount (pyJoin "\n" lines) = lines.length - 1 := by
  intro lines
  induction lines with
  | nil => intro _; rfl
  | cons x xs ih =>
    intro h
    cases xs with
    | nil => simpa using h x (by simp)
    | cons y t =>
      have hstep : pyJoin "\n" (x :: y :: t) = x ++ "\n" ++ pyJoin "\n" (y :: t) := rfl
      have hnl : nlCount "\n" = 1 := rfl
      rw [hstep, nlCount_append, nlCount_append, h x (by simp), hnl,
        ih fun l hl => h l (by simp [hl])]
      simp [List.length_cons]
      omega

/-- No digit character is a newline. -/
theorem digitChar_ne_newline (m : Nat) : Nat.digitChar m ≠ '\n' := by
  by_cases h : m < 16
  · interval_cases m <;> decide
  · have hstar : Nat.digitChar m = '*' := by
      unfold Nat.digitChar
      repeat rw [if_neg (by omega)]
    rw [hstar]
    decide

/-- `Nat.toDigitsCore` over newline-free accumulated digits yields only
newline-free characters. -/
theorem toDigitsCore_ne_newline :
    ∀ (fuel n : Nat) (ds : List Char), (∀ c ∈ ds, c ≠ '\n') →
      ∀ c ∈ Nat.toDigitsCore 10 fuel n ds, c ≠ '\n' := by
  intro fuel
  induction fuel with
  | zero => intro n ds h c hc; exact h c hc
  | succ f ih =>
    intro n ds h c hc
    have hc' : c ∈ (if n / 10 = 0 then Nat.digitChar (n % 10) :: ds
        else Nat.toDigitsCore 10 f (n / 10) (Nat.digitChar (n % 10) :: ds)) := hc
    have hacc : ∀ c' ∈ Nat.digitChar (n % 10) :: ds, c' ≠ '\n' := by
      intro c' hcc
      rcases List.mem_cons.mp hcc with rfl | hds
      · exact digitChar_ne_newline _
      · exact h c' hds
    by_cases hq : n / 10 = 0
    · rw [if_pos hq] at hc'
      exact hacc c hc'
    · rw [if_neg hq] at hc'
      exact ih (n / 10) (Nat.digitChar (n % 10) :: ds) hacc c hc'

/-- Python's decimal rendering of a natural number has no newline. -/
theorem nat_repr_nlCount (n : Nat) : nlCount (Nat.repr n) = 0 := by
  rw [nlCount_eq_zero]
  intro hmem
  have hmem' : '\n' ∈ Nat.toDigits 10 n := hmem
  exact toDigitsCore_ne_newline (n + 1) n [] (by simp) '\n' hmem' rfl

/-- The truncation line has no newline. -/
theorem nlCount_truncationLine (n : Nat) : nlCount (truncationLine n) = 0 := by
  rw [truncationLine, nlCount_append, nlCount_append, nat_repr_nlCount]
  rfl

/-- An option-valued `mapM` over a list on which the function always
succeeds: it succeeds, keeps the length, and every output comes from some
input. -/
theorem mapM_option_some {α β : Type} (f : α → Option β) (l : List α) :
    (∀ a ∈ l, (f a).isSome = true) →
    ∃ ys, l.mapM f = some ys ∧ ys.length = l.length
      ∧ ∀ y ∈ ys, ∃ a ∈ l, f a = some y := by
  induction l with
  | nil => intro _; exact ⟨[], rfl, rfl, by simp⟩
  | cons a t ih =>
    intro h
    obtain ⟨b, hb⟩ := Option.isSome_iff_exists.mp (h a (by simp))
    obtain ⟨ys, hys, hyslen, hmem⟩ := ih fun x hx => h x (by simp [hx])
    refine ⟨b :: ys, ?_, by simp [hyslen], ?_⟩
    · rw [List.mapM_cons, hb, hys]; rfl
    · intro y hy
      rcases List.mem_cons.mp hy with rfl | hy
      · exact ⟨a, by simp, hb⟩
      · obtain ⟨x, hx, hfx⟩ := hmem y hy
        exact ⟨x, by simp [hx], hfx⟩

/-- Each cell produced by the `ljust` generator is a padded row cell. -/
theorem ljustCells_mem (row : List String) :
    ∀ (ws : List Nat) (cs : List String), ljustCells ws row = some cs →
      ∀ c ∈ cs, ∃ v ∈ row, ∃ w, c = ljust v w := by
  induction row with
  | nil =>
    intro ws cs h
    simp [ljustCells] at h
    subst h; simp
  | cons v vs ih =>
    intro ws cs h
    cases ws with
    | nil => cases h
    | cons w ws =>
      obtain ⟨t, ht, rfl⟩ := Option.map_eq_some'.mp h
      intro c hc
      rcases List.mem_cons.mp hc with rfl | hc
      · exact ⟨v, by simp, w, rfl⟩
      · obtain ⟨v', hv', w', hw'⟩ := ih ws t ht c hc
        exact ⟨v', by simp [hv'], w', hw'⟩

/-- A formatted row line is newline-free when the row's cells are. -/
theorem format_row_nlCount (ws : List Nat) (row : List String)
    (h : ∀ v ∈ row, nlCount v = 0) (y : String)
    (hy : format_row ws row = some y) : nlCount y = 0 := by
  obtain ⟨cs, hcs, rfl⟩ := Option.map_eq_some'.mp hy
  refine nlCount_pyJoin_zero " | " rfl cs ?_
  intro c hc
  obtain ⟨v, hv, w, rfl⟩ := ljustCells_mem row ws cs hcs c hc
  rw [nlCount_ljust]
  exact h v hv

/-- The dash separator line of `format_rows` is newline-free. -/
theorem sep_line_nlCount (ws : List Nat) :
    nlCount (pyJoin "-+-" (ws.map fun w => String.mk (List.replicate w '-'))) = 0 := by
  refine nlCount_pyJoin_zero "-+-" rfl _ ?_
  intro l hl
  obtain ⟨w, _, rfl⟩ := List.mem_map.mp hl
  rw [nlCount_eq_zero]
  intro hmem
  have := List.eq_of_mem_replicate hmem
  simp at this

/-- Master lemma for a non-empty, well-formed `format_rows` call: every
stage succeeds and the result is the `"\n"`-join of the header line, the
separator, one line per retained row and, past the cap, the truncation
line. -/
theorem format_rows_success (headers : List String) (rows : List (List String))
    (hne : rows ≠ []) (hlen : ∀ r ∈ rows, r.length ≤ headers.length) :
    ∃ ws hl ds, computeColWidths headers rows = some ws
      ∧ ws.length = headers.length
      ∧ format_row ws headers = some hl
      ∧ (rows.take max_rows).mapM (format_row ws) = some ds
      ∧ ds.length = min max_rows rows.length
      ∧ (∀ y ∈ ds, ∃ r ∈ rows, format_row ws r = some y)
      ∧ format_rows headers rows =
          some (pyJoin "\n" ((hl
            :: pyJoin "-+-" (ws.map fun w => String.mk (List.replicate w '-'))
            :: ds)
            ++ (if rows.length > max_rows
                then [truncationLine (rows.length - max_rows)] else []))) := by
  obtain ⟨ws, hws, hwslen, _⟩ :=
    computeColWidths_go rows (headers.map String.length) (by simpa using hlen)
  have hws' : computeColWidths headers rows = some ws := hws
  have hwslen' : ws.length = headers.length := by simpa using hwslen
  obtain ⟨cs, hcs, _, _⟩ := ljustCells_some headers ws (le_of_eq hwslen'.symm)
  have hhl : format_row ws headers = some (pyJoin " | " cs) := by
    simp [format_row, hcs]
  have hfit : ∀ r ∈ rows.take max_rows, (format_row ws r).isSome = true := by
    intro r hr
    obtain ⟨cs', hcs', _, _⟩ := ljustCells_some r ws
      (le_trans (hlen r (List.mem_of_mem_take hr)) (le_of_eq hwslen'.symm))
    simp [format_row, hcs']
  obtain ⟨ds, hds, hdslen, hdsmem⟩ := mapM_option_some (format_row ws) (rows.take max_rows) hfit
  refine ⟨ws, pyJoin " | " cs, ds, hws', hwslen', hhl, hds, ?_, ?_, ?_⟩
  · rw [hdslen, List.length_take]
  · intro y hy
    obtain ⟨r, hr, hfr⟩ := hdsmem y hy
    exact ⟨r, List.mem_of_mem_take hr, hfr⟩
  · have hempty : rows.isEmpty = false := by
      cases rows with
      | nil => exact absurd rfl hne
      | cons r t => rfl
    simp [format_rows, hempty, hws', hhl]
    have hds' : List.mapM.loop (format_row ws) (List.take max_rows rows) [] = some ds := hds
    rw [hds']
    rfl

/-! ## Claim theorems -/

/-- C5: for every headers sequence, `format_rows(headers, [])` returns the
literal fixed no-rows message, independent of the headers; the empty-rows
case is a normal `some` result, not an error. -/
theorem format_rows_no_rows_message (headers : List String) :
    format_rows headers [] = some noRowsMsg := rfl

/-- C3: whenever `execute_sql` raises any exception `e` (a `RuntimeError`
for a missing `DATABASE_URL`, a `ValueError` for a bad scheme, or a driver
error), the `query_database` tool returns the string
`"Failed to execute query: " ++ str(e)`; being a total `String`-valued
function, it never propagates an exception past the tool boundary. -/
theorem query_database_failure_string (env : String → Option String)
    (runSqlite runPostgres : String → String → Except String String)
    (query : String) (e : PyErr)
    (h : (execute_sql env runSqlite runPostgres query).fst = Except.error e) :
    query_database env runSqlite runPostgres query =
      "Failed to execute query: " ++ e.message := by
  unfold query_database
  rw [h]

/-- Witness for C3 at the missing-`DATABASE_URL` configuration error. -/
theorem query_database_missing_url_witness :
    query_database (fun _ => none) (fun _ _ => Except.ok "") (fun _ _ => Except.ok "")
      "SELECT 1" =
      "Failed to execute query: DATABASE_URL is not set. Add it to .env or the environment before querying." :=
  query_database_failure_string (fun _ => none) (fun _ _ => Except.ok "")
    (fun _ _ => Except.ok "") "SELECT 1" (PyErr.runtimeError missingUrlMsg) rfl

/-- C7 (amended): the two fastmcp `browse_files` handlers are total
`String`-valued functions — on a listable directory they return
`"Files at {resolved_path}: "` followed by the comma-separated entries,
and on each of the three caught failures the corresponding descriptive
string (the not-found one containing `"does not exist"`) — while the
legacy `browse_files_tool` of `server/main.py` returns the success string
only on a listable directory and lets every `os.listdir` exception
propagate out of the handler. -/
theorem browse_files_never_raises (expand : String → String)
    (listdir : String → ListDirResult) (path : String) :
    (∀ files, listdir (expand path) = ListDirResult.ok files →
      browse_files expand listdir path =
        "Files at " ++ expand path ++ ": " ++ pyJoin ", " files)
    ∧ (listdir (expand path) = ListDirResult.fileNotFound →
      ∃ pre post, browse_files expand listdir path = pre ++ "does not exist" ++ post)
    ∧ (listdir (expand path) = ListDirResult.notADirectory →
      browse_files expand listdir path =
        "The path '" ++ expand path ++ "' is not a directory.")
    ∧ (listdir (expand path) = ListDirResult.permissionError →
      browse_files expand listdir path =
        "Permission denied while accessing '" ++ expand path ++ "'.")
    ∧ (∀ files, listdir path = ListDirResult.ok files →
      browse_files_tool listdir path =
        Except.ok ("Files at " ++ path ++ ": " ++ pyJoin ", " files))
    ∧ (listdir path = ListDirResult.fileNotFound →
      browse_files_tool listdir path = Except.error ListDirResult.fileNotFound)
    ∧ (listdir path = ListDirResult.notADirectory →
      browse_files_tool listdir path = Except.error ListDirResult.notADirectory)
    ∧ (listdir path = ListDirResult.permissionError →
      browse_files_tool listdir path = Except.error ListDirResult.permissionError) := by
  refine ⟨?_, ?_, ?_, ?_, ?_, ?_, ?_, ?_⟩
  · intro files h
    unfold browse_files; rw [h]
  · intro h
    refine ⟨"The path '" ++ expand path ++ "' ", ".", ?_⟩
    unfold browse_files; rw [h]
    apply str_ext
    simp [String.data_append, List.append_assoc]
  · intro h
    unfold browse_files; rw [h]
  · intro h
    unfold browse_files; rw [h]
  · intro files h
    unfold browse_files_tool; rw [h]
  · intro h
    unfold browse_files_tool; rw [h]
  · intro h
    unfold browse_files_tool; rw [h]
  · intro h
    unfold browse_files_tool; rw [h]

/-- Counterexample to C7 as stated: the cited `browse_files_tool` handler
of `server/main.py` wraps `os.listdir` in no `try`/`except`, so on a
non-existent path it raises `FileNotFoundError` out of the handler and
returns no string at all — in particular none containing
`"does not exist"`. -/
theorem browse_files_tool_raises_cex :
    browse_files_tool (fun _ => ListDirResult.fileNotFound) "/nope"
      = Except.error ListDirResult.fileNotFound
    ∧ ∀ s : String,
        browse_files_tool (fun _ => ListDirResult.fileNotFound) "/nope" ≠ Except.ok s := by
  constructor
  · rfl
  · intro s h
    cases h

/-- C6: a session with no stored row loads as the empty sequence (both in
the freshly created table and in any table state without a row for it),
and a `save_messages` followed by `load_messages` for the same session
returns exactly the saved sequence, given langchain's round trip
`messages_from_dict ∘ map message_to_dict = id`. -/
theorem chat_store_round_trip {Msg Dict : Type}
    (message_to_dict : Msg → Dict) (messages_from_dict : List Dict → List Msg)
    (hinv : ∀ l : List Msg, messages_from_dict (l.map message_to_dict) = l)
    (session_id : String) (msgs : List Msg) (now : Nat) (db : ChatDB Dict) :
    load_messages messages_from_dict session_id (emptyChatDB Dict) = []
    ∧ (db session_id = none → load_messages messages_from_dict session_id db = [])
    ∧ load_messages messages_from_dict session_id
        (save_messages message_to_dict session_id msgs now db) = msgs := by
  refine ⟨rfl, ?_, ?_⟩
  · intro h
    unfold load_messages; rw [h]
  · have collapse : (if (msgs.map message_to_dict).isEmpty then []
        else msgs.map message_to_dict) = msgs.map message_to_dict := by
      cases msgs <;> simp
    cases hdb : db session_id with
    | none =>
      simp only [load_messages, save_messages, hdb, if_pos rfl]
      rw [collapse]; exact hinv msgs
    | some r =>
      simp only [load_messages, save_messages, hdb, if_pos rfl]
      rw [collapse]; exact hinv msgs

/-- Witness for C6 at a concrete instantiation (identity serialisation on
`Nat` messages, session `"s"`, messages `[1, 2]`). -/
theorem chat_store_round_trip_witness :
    load_messages (fun l : List Nat => l) "s" (emptyChatDB Nat) = []
    ∧ (emptyChatDB Nat "s" = none → load_messages (fun l : List Nat => l) "s" (emptyChatDB Nat) = [])
    ∧ load_messages (fun l : List Nat => l) "s"
        (save_messages (fun m : Nat => m) "s" [1, 2] 7 (emptyChatDB Nat)) = [1, 2] :=
  chat_store_round_trip (fun m : Nat => m) (fun l => l) (fun l => by simp) "s" [1, 2] 7
    (emptyChatDB Nat)

/-- C10: saving over an existing row changes only that row's `messages`
and `updated_at`: its `created_at` is kept (the conflict branch assigns
only `messages` and `updated_at`), its key is unchanged, and every other
session's row is untouched. -/
theorem save_messages_frame {Msg Dict : Type} (message_to_dict : Msg → Dict)
    (session_id : String) (msgs : List Msg) (now : Nat) (db : ChatDB Dict)
    (r : ChatRow Dict) (hrow : db session_id = some r) :
    save_messages message_to_dict session_id msgs now db session_id
      = some { messages := msgs.map message_to_dict,
               created_at := r.created_at, updated_at := now }
    ∧ ∀ k, k ≠ session_id → save_messages message_to_dict session_id msgs now db k = db k := by
  constructor
  · simp only [save_messages, hrow, if_pos rfl]
  · intro k hk
    simp only [save_messages, if_neg hk]

/-- Witness for C10 at a concrete table holding one row for session `"s"`
with `created_at = 1`. -/
theorem save_messages_frame_witness :
    save_messages (fun m : Nat => m) "s" [9] 3
        (fun k => if k = "s" then some (ChatRow.mk [5] 1 1) else none) "s"
      = some { messages := [9], created_at := 1, updated_at := 3 }
    ∧ ∀ k, k ≠ "s" → save_messages (fun m : Nat => m) "s" [9] 3
        (fun k => if k = "s" then some (ChatRow.mk [5] 1 1) else none) k
      = (fun k => if k = "s" then some (ChatRow.mk [5] 1 1) else none) k :=
  save_messages_frame (fun m : Nat => m) "s" [9] 3
    (fun k => if k = "s" then some (ChatRow.mk [5] 1 1) else none) (ChatRow.mk [5] 1 1) rfl

/-- A key already present in the environment keeps its value through the
whole `load_env` loop (`setdefault` never overwrites). -/
theorem load_env_keeps_present (lines : List String) :
    ∀ (env : String → Option String) (key v : String),
      env key = some v → load_env env lines key = some v := by
  induction lines with
  | nil => intro env key v h; exact h
  | cons line rest ih =>
    intro env key v h
    unfold load_env
    cases hp : parseEnvLine line with
    | none => exact ih env key v h
    | some kv =>
      apply ih
      by_cases hk : key = kv.fst
      · have henv : env kv.fst = some v := hk ▸ h
        simp [setdefault, hk, henv]
      · simp [setdefault, hk, h]

/-- C8: the environment loader has first-write-wins semantics. Every key
already present in the process environment before the load keeps its value
unchanged, and a key absent from the environment ends with the value the
`.env` file's first parsed line for it offers (and stays absent when the
file offers none): only absent keys receive file values. The file is read
by the one `settings.load_env()` / `load_env_file(ENV_PATH)` call at
module start-up. -/
theorem load_env_first_write_wins (env : String → Option String)
    (lines : List String) (key : String) :
    (∀ v, env key = some v → load_env env lines key = some v)
    ∧ (env key = none → load_env env lines key = firstFileValue lines key) := by
  constructor
  · intro v h
    exact load_env_keeps_present lines env key v h
  · induction lines generalizing env with
    | nil =>
      intro h
      simpa [load_env, firstFileValue] using h
    | cons line rest ih =>
      intro h
      unfold load_env
      cases hp : parseEnvLine line with
      | none =>
        rw [show firstFileValue (line :: rest) key = firstFileValue rest key from by
          simp [firstFileValue, List.filterMap_cons, hp]]
        exact ih env h
      | some kv =>
        by_cases hk : kv.fst = key
        · have hset : setdefault env kv.fst kv.snd key = some kv.snd := by
            have henv : env kv.fst = none := hk ▸ h
            simp [setdefault, hk.symm, henv]
          rw [show firstFileValue (line :: rest) key = some kv.snd from by
            simp [firstFileValue, List.filterMap_cons, hp, List.find?, hk]]
          exact load_env_keeps_present rest _ key kv.snd hset
        · have hset : setdefault env kv.fst kv.snd key = none := by
            have hk' : ¬ key = kv.fst := fun hkk => hk hkk.symm
            simp [setdefault, hk', h]
          rw [show firstFileValue (line :: rest) key = firstFileValue rest key from by
            simp [firstFileValue, List.filterMap_cons, hp, List.find?, hk]]
          exact ih _ hset

/-- A string beginning with a Postgres scheme does not begin with the
SQLite scheme (their first characters differ), so the two prefix tests of
`execute_sql` select at most one branch. -/
theorem not_sqlite_of_postgres {url : String}
    (h : pyStartswith url "postgresql://" = true ∨ pyStartswith url "postgres://" = true) :
    pyStartswith url "sqlite:///" = false := by
  by_contra hs
  rw [Bool.not_eq_false] at hs
  unfold pyStartswith at hs h
  obtain ⟨t1, ht1⟩ := List.isPrefixOf_iff_prefix.mp hs
  have e1 : url.data.head? = some 's' := by rw [← ht1]; rfl
  cases h with
  | inl hp =>
    obtain ⟨t2, ht2⟩ := List.isPrefixOf_iff_prefix.mp hp
    have e2 : url.data.head? = some 'p' := by rw [← ht2]; rfl
    rw [e1] at e2
    exact absurd e2 (by decide)
  | inr hp =>
    obtain ⟨t2, ht2⟩ := List.isPrefixOf_iff_prefix.mp hp
    have e2 : url.data.head? = some 'p' := by rw [← ht2]; rfl
    rw [e1] at e2
    exact absurd e2 (by decide)

/-- C2 (amended): for every non-empty connection string the dispatcher
routes the SQLite scheme and the Postgres schemes to the two distinct
backends and fails any other scheme with a `ValueError`, attempting no
connection there. (The empty string is instead treated as a missing
`DATABASE_URL`: see the counterexample.) -/
theorem execute_sql_dispatch_routes (env : String → Option String)
    (runSqlite runPostgres : String → String → Except String String)
    (query url : String)
    (hurl : env "DATABASE_URL" = some url) (hne : url ≠ "") :
    dispatchSpec env runSqlite runPostgres query url := by
  refine ⟨by decide, ?_, ?_, ?_⟩
  · intro hs
    unfold execute_sql
    rw [hurl]
    simp [hne, hs]
  · intro hp
    have hs := not_sqlite_of_postgres hp
    unfold execute_sql
    rw [hurl]
    rcases hp with hp | hp <;> simp [hne, hs, hp]
  · intro h1 h2 h3
    unfold execute_sql
    rw [hurl]
    simp [hne, h1, h2, h3]

/-- Witness for C2's amended theorem at `url = "sqlite:///x.db"`. -/
theorem execute_sql_dispatch_routes_witness :
    dispatchSpec (fun _ => some "sqlite:///x.db") (fun _ _ => Except.ok "ok")
      (fun _ _ => Except.ok "ok") "SELECT 1" "sqlite:///x.db" :=
  execute_sql_dispatch_routes (fun _ => some "sqlite:///x.db") (fun _ _ => Except.ok "ok")
    (fun _ _ => Except.ok "ok") "SELECT 1" "sqlite:///x.db" rfl (by decide)

/-- Counterexample to C2 as stated: the empty string is a connection
string matching neither recognised prefix, yet `execute_sql` raises the
`RuntimeError` for a missing `DATABASE_URL` (Python's
`if not database_url` treats `""` as unset), not a `ValueError`. No
connection is attempted there either. -/
theorem execute_sql_empty_url_cex :
    (execute_sql (fun k => if k = "DATABASE_URL" then some "" else none)
        (fun _ _ => Except.ok "") (fun _ _ => Except.ok "") "SELECT 1")
      = (Except.error (PyErr.runtimeError missingUrlMsg), [])
    ∧ (∀ m, (Except.error (PyErr.runtimeError missingUrlMsg) : Except PyErr String)
        ≠ Except.error (PyErr.valueError m)) := by
  constructor
  · rfl
  · intro m h
    cases h

/-- C9: `format_rows` is total on every input whose rows each have at most
as many cells as there are headers; and the precondition is necessary —
with one header and a two-cell row the width loop indexes past the end of
`col_widths` and raises `IndexError`. -/
theorem format_rows_totality :
    (∀ (headers : List String) (rows : List (List String)),
      (∀ r ∈ rows, r.length ≤ headers.length) → (format_rows headers rows).isSome = true)
    ∧ format_rows ["h"] [["a", "b"]] = none := by
  constructor
  · intro headers rows hlen
    rcases eq_or_ne rows [] with rfl | hne
    · rfl
    · obtain ⟨ws, hl, ds, _, _, _, _, _, _, hfin⟩ :=
        format_rows_success headers rows hne hlen
      simp [hfin]
  · rfl

/-- C4: the width `format_rows` uses for column `i` equals the spec's
formula — the maximum string length among the `i`-th header and the `i`-th
cell of every row: it is that fold, bounds the header and every cell of
the column, and is attained by one of them. -/
theorem format_rows_column_width_spec (headers : List String)
    (rows : List (List String))
    (hlen : ∀ r ∈ rows, r.length ≤ headers.length)
    (i : Nat) (hi : i < headers.length) :
    ∃ ws hd, computeColWidths headers rows = some ws
      ∧ headers[i]? = some hd
      ∧ ws[i]? = some (specColWidth headers rows i)
      ∧ hd.length ≤ specColWidth headers rows i
      ∧ (∀ v ∈ columnCells rows i, v.length ≤ specColWidth headers rows i)
      ∧ (specColWidth headers rows i = hd.length
        ∨ ∃ v ∈ columnCells rows i, specColWidth headers rows i = v.length) := by
  obtain ⟨ws, hws, _, hget⟩ :=
    computeColWidths_go rows (headers.map String.length) (by simpa using hlen)
  have hws' : computeColWidths headers rows = some ws := hws
  have hhd : headers[i]? = some headers[i] := List.getElem?_eq_getElem hi
  have hmap : (headers.map String.length)[i]? = some headers[i].length := by
    rw [List.getElem?_map, hhd]
    rfl
  have hspec : specColWidth headers rows i =
      ((columnCells rows i).map String.length).foldl max headers[i].length := by
    simp [specColWidth, hhd]
  refine ⟨ws, headers[i], hws', hhd, ?_, ?_, ?_, ?_⟩
  · rw [hspec]
    exact hget i _ hmap
  · rw [hspec]
    exact (foldl_max_bounds _ _).1
  · intro v hv
    rw [hspec]
    exact (foldl_max_bounds _ _).2.1 v.length (List.mem_map_of_mem _ hv)
  · rw [hspec]
    rcases (foldl_max_bounds ((columnCells rows i).map String.length)
        headers[i].length).2.2 with h | ⟨x, hx, hxeq⟩
    · exact Or.inl h
    · obtain ⟨v, hv, rfl⟩ := List.mem_map.mp hx
      exact Or.inr ⟨v, hv, hxeq⟩

/-- Witness for C4 at headers `["id", "name"]`, one row `["1", "alice"]`,
column `1` (where the cell, of length 5, beats the header, of length 4). -/
theorem format_rows_column_width_witness :
    ∃ ws hd, computeColWidths ["id", "name"] [["1", "alice"]] = some ws
      ∧ (["id", "name"] : List String)[1]? = some hd
      ∧ ws[1]? = some (specColWidth ["id", "name"] [["1", "alice"]] 1)
      ∧ hd.length ≤ specColWidth ["id", "name"] [["1", "alice"]] 1
      ∧ (∀ v ∈ columnCells [["1", "alice"]] 1,
          v.length ≤ specColWidth ["id", "name"] [["1", "alice"]] 1)
      ∧ (specColWidth ["id", "name"] [["1", "alice"]] 1 = hd.length
        ∨ ∃ v ∈ columnCells [["1", "alice"]] 1,
            specColWidth ["id", "name"] [["1", "alice"]] 1 = v.length) :=
  format_rows_column_width_spec ["id", "name"] [["1", "alice"]] (by decide) 1 (by decide)

/-- C1 (amended): for a non-empty rows sequence whose rows fit under the
headers and whose headers and cells contain no newline character, the
output of `format_rows` has exactly
`2 + min(len(rows), 25) + (1 if len(rows) > 25 else 0)` lines; for
`rows = []` the output is the one-line no-rows message instead (see the
counterexample). -/
theorem format_rows_line_count (headers : List String) (rows : List (List String))
    (hne : rows ≠ [])
    (hlen : ∀ r ∈ rows, r.length ≤ headers.length)
    (hnlh : ∀ hd ∈ headers, nlCount hd = 0)
    (hnlc : ∀ r ∈ rows, ∀ v ∈ r, nlCount v = 0) :
    ∃ s, format_rows headers rows = some s
      ∧ lineCount s = 2 + min rows.length 25
          + (if rows.length > 25 then 1 else 0) := by
  obtain ⟨ws, hl, ds, _, _, hhl, _, hdslen, hdsmem, hfin⟩ :=
    format_rows_success headers rows hne hlen
  refine ⟨_, hfin, ?_⟩
  have hlines : ∀ l ∈ (hl
      :: pyJoin "-+-" (ws.map fun w => String.mk (List.replicate w '-'))
      :: ds)
      ++ (if rows.length > max_rows
          then [truncationLine (rows.length - max_rows)] else []), nlCount l = 0 := by
    intro l hlmem
    rcases List.mem_append.mp hlmem with hlmem | hlmem
    · rcases List.mem_cons.mp hlmem with rfl | hlmem
      · exact format_row_nlCount ws headers hnlh l hhl
      · rcases List.mem_cons.mp hlmem with rfl | hlmem
        · exact sep_line_nlCount ws
        · obtain ⟨r, hr, hfr⟩ := hdsmem l hlmem
          exact format_row_nlCount ws r (hnlc r hr) l hfr
    · by_cases h25 : rows.length > max_rows
      · rw [if_pos h25] at hlmem
        rcases List.mem_singleton.mp hlmem with rfl
        exact nlCount_truncationLine _
      · rw [if_neg h25] at hlmem
        simp at hlmem
  rw [lineCount, nlCount_pyJoin_newline _ hlines]
  rw [List.length_append, List.length_cons, List.length_cons, hdslen]
  have hmr : max_rows = 25 := rfl
  by_cases h25 : rows.length > 25
  · rw [hmr]
    simp [h25, Nat.min_comm]
    omega
  · rw [hmr]
    simp [h25, Nat.min_comm]
    omega

/-- Witness for C1's amended theorem at two headers and two rows
(4 output lines). -/
theorem format_rows_line_count_witness :
    ∃ s, format_rows ["a", "b"] [["x", "yy"], ["z", "w"]] = some s
      ∧ lineCount s = 2 + min (List.length [["x", "yy"], ["z", "w"]]) 25
          + (if List.length [["x", "yy"], ["z", "w"]] > 25 then 1 else 0) :=
  format_rows_line_count ["a", "b"] [["x", "yy"], ["z", "w"]]
    (by decide) (by decide) (by decide) (by decide)

/-- Counterexample to C1 as stated: at `rows = []` the returned string is
the one-line no-rows message, not the `2 + min(0, 25) + 0 = 2` lines the
formula demands. -/
theorem format_rows_empty_rows_cex :
    format_rows ["h"] ([] : List (List String)) = some noRowsMsg
    ∧ lineCount noRowsMsg = 1
    ∧ lineCount noRowsMsg ≠ 2 + min (List.length ([] : List (List String))) 25
        + (if List.length ([] : List (List String)) > 25 then 1 else 0) := by
  refine ⟨rfl, rfl, ?_⟩
  decide
